import Mathlib

/-!
Verification development for the Signal Scout adaptive ranking engine.

Shallow embedding of the repository's storage layer (`database.py`),
scoring pass (`ranking.py`), summarizer fallback (`summarizer.py`),
feedback endpoint (`digest_server.py`) and refresh orchestration
(`app.py`).  SQLite rows become Lean structures; the tables become
lists; `INSERT OR REPLACE` on a keyed table becomes an
association-list update.  All integers stored by the program are
Python ints (votes, relevance scores) so weights and scores are
modelled as `Int`; `created_at` text timestamps are modelled as a
monotone `Nat` clock (SQLite compares the ISO text lexicographically,
which is order-isomorphic to the clock).
-/

namespace SignalScout

/-- A row of the `items` table (schema in `database.py`).  `tags` is stored
as a JSON list in the row; here it is the decoded list. -/
structure Item where
  id : Int
  url : String
  title : String
  source : String
  publishedAt : String
  snippet : String
  summary : Option String := none
  whyItMatters : Option String := none
  tags : List String := []
  relevanceScore : Int := 50
  finalScore : Int := 50
  summarized : Bool := false
  createdAt : Nat := 0
deriving Repr, DecidableEq

/-- A row of the append-only `feedback` table. -/
structure FeedbackEvent where
  itemId : Int
  vote : Int
deriving Repr, DecidableEq

/-- The whole SQLite store: the four tables plus the id sequence and the
clock that stamps `created_at`. -/
structure DB where
  items : List Item := []
  feedback : List FeedbackEvent := []
  tagWeights : List (String × Int) := []
  sourceWeights : List (String × Int) := []
  nextId : Int := 1
  clock : Nat := 0
deriving Repr, DecidableEq

/-- Keyed lookup on a weights table; a missing row reads as 0
(`row["weight"] if row else 0`). -/
def lookupWeight (ws : List (String × Int)) (key : String) : Int :=
  match ws.find? (fun p => p.1 == key) with
  | some p => p.2
  | none => 0

/-- `INSERT OR REPLACE` into a weights table keyed by its first column. -/
def storeWeight (ws : List (String × Int)) (key : String) (v : Int) :
    List (String × Int) :=
  if ws.any (fun p => p.1 == key) then
    ws.map (fun p => if p.1 == key then (key, v) else p)
  else ws ++ [(key, v)]

/-- `Database.get_tag_weight`. -/
def get_tag_weight (db : DB) (tag : String) : Int :=
  lookupWeight db.tagWeights tag

/-- `Database.get_source_weight`. -/
def get_source_weight (db : DB) (source : String) : Int :=
  lookupWeight db.sourceWeights source

/-- The clamp `max(-10, min(10, w + delta))` used by both weight
adjusters. -/
def clampW (x : Int) : Int := max (-10) (min 10 x)

/-- `Database._adjust_tag_weight`. -/
def adjust_tag_weight (db : DB) (tag : String) (delta : Int) : DB :=
  let w := clampW (lookupWeight db.tagWeights tag + delta)
  { db with tagWeights := storeWeight db.tagWeights tag w }

/-- `Database._adjust_source_weight`. -/
def adjust_source_weight (db : DB) (source : String) (delta : Int) : DB :=
  let w := clampW (lookupWeight db.sourceWeights source + delta)
  { db with sourceWeights := storeWeight db.sourceWeights source w }

/-- `Database.record_feedback`: the feedback row is inserted first; the
item is then looked up, and only if it exists are the weights adjusted.
A missing item raises nothing — the function simply commits the
feedback row. -/
def record_feedback (db : DB) (item_id vote : Int) : DB :=
  let db1 : DB := { db with feedback := db.feedback ++ [⟨item_id, vote⟩] }
  match db1.items.find? (fun i => i.id == item_id) with
  | some item =>
      adjust_source_weight
        (item.tags.foldl (fun d t => adjust_tag_weight d t vote) db1)
        item.source vote
  | none => db1

/-- The dedup insert body: `INSERT OR IGNORE` keyed on the unique `url`
column, `rowcount > 0` reported as the Bool.  New rows get the schema
defaults (`tags '[]'`, `relevance_score 50`, `final_score 50`,
`summarized 0`, `created_at now`). -/
def insert_item_txn (db : DB) (url title source published_at snippet : String) :
    Bool × DB :=
  if db.items.any (fun i => i.url == url) then (false, db)
  else
    (true,
     { db with
        items := db.items ++
          [{ id := db.nextId, url := url, title := title, source := source,
             publishedAt := published_at, snippet := snippet,
             createdAt := db.clock }],
        nextId := db.nextId + 1,
        clock := db.clock + 1 })

/-- `Database.insert_item`: the body runs under `try/except sqlite3.Error`;
a store error (modelled by `storeFault`) is caught and reported as the
same `False` that a duplicate URL produces. -/
def insert_item (db : DB) (url title source published_at snippet : String)
    (storeFault : Option String := none) : Bool × DB :=
  match (match storeFault with
         | some e => Except.error e
         | none => Except.ok (insert_item_txn db url title source published_at snippet) :
         Except String (Bool × DB)) with
  | Except.ok r => r
  | Except.error _ => (false, db)

/-- `Database.update_summary`: sets summary fields and the summarized
flag on the row with the given id. -/
def update_summary (db : DB) (item_id : Int) (summary why_it_matters : String)
    (tags : List String) (relevance_score : Int) : DB :=
  { db with items := db.items.map (fun i =>
      if i.id == item_id then
        { i with summary := some summary, whyItMatters := some why_it_matters,
                 tags := tags, relevanceScore := relevance_score,
                 summarized := true }
      else i) }

/-- `Database.update_final_score`. -/
def update_final_score (db : DB) (item_id : Int) (s : Int) : DB :=
  { db with items := db.items.map (fun i =>
      if i.id == item_id then { i with finalScore := s } else i) }

/-- `Database.get_all_summarized_items` (`WHERE summarized = 1`). -/
def get_all_summarized_items (db : DB) : List Item :=
  db.items.filter (fun i => i.summarized)

/-- The rank formula of `ranking.recalculate_scores` for one item:
relevance plus the sum of its tags' weights plus its source's weight. -/
def rank_of (db : DB) (i : Item) : Int :=
  i.relevanceScore + (i.tags.map (fun t => get_tag_weight db t)).sum
    + get_source_weight db i.source

/-- `ranking.recalculate_scores`: snapshot the summarized items, then
write each one's recomputed `final_score` back by id.  The weight tables
are not written during the pass, so every rank is computed against the
entry weights. -/
def recalculate_scores (db : DB) : DB :=
  (get_all_summarized_items db).foldl
    (fun d it => update_final_score d it.id (rank_of db it)) db

/-- Descending `created_at` order (`ORDER BY created_at DESC`). -/
def CreatedDesc (a b : Item) : Prop := b.createdAt ≤ a.createdAt

instance : DecidableRel CreatedDesc := fun _ _ => Nat.decLe _ _

/-- `Database.get_unsummarized_items` (`WHERE summarized = 0 ORDER BY
created_at DESC LIMIT ?`). -/
def get_unsummarized_items (db : DB) (limit : Nat := 30) : List Item :=
  (List.insertionSort CreatedDesc (db.items.filter (fun i => !i.summarized))).take limit

/-- The digest ordering `ORDER BY final_score DESC, created_at DESC`. -/
def DigestOrder (a b : Item) : Prop :=
  b.finalScore < a.finalScore ∨
    (b.finalScore = a.finalScore ∧ b.createdAt ≤ a.createdAt)

instance : DecidableRel DigestOrder := fun _ _ =>
  inferInstanceAs (Decidable (_ ∨ _))

/-- The correlated subquery on `feedback`: the most recent vote recorded
for the item, if any (rows are stamped in insertion order). -/
def user_vote (db : DB) (item_id : Int) : Option Int :=
  ((db.feedback.filter (fun f => f.itemId == item_id)).getLast?).map
    (fun f => f.vote)

/-- The rows selected by `Database.get_digest_items` before annotation:
summarized items, digest order, first `limit`. -/
def digest_ranked (db : DB) (limit : Nat) : List Item :=
  (List.insertionSort DigestOrder (db.items.filter (fun i => i.summarized))).take limit

/-- `Database.get_digest_items`: the ranked rows, each annotated with the
caller's most recent vote. -/
def get_digest_items (db : DB) (limit : Nat := 15) : List (Item × Option Int) :=
  (digest_ranked db limit).map (fun i => (i, user_vote db i.id))

/-! Summarizer (`summarizer.py`).  The LLM call is external I/O and is a
parameter; the no-key fallback path is pure and embedded in full. -/

/-- One result dict of `summarize_items`. -/
structure SummaryResult where
  id : Int
  summary : String
  why_it_matters : String
  tags : List String
  relevance_score : Int
deriving Repr, DecidableEq

/-- Python substring membership `sub in l` on character lists. -/
def isInfixB (sub : List Char) : List Char → Bool
  | [] => sub.isEmpty
  | c :: cs => sub.isPrefixOf (c :: cs) || isInfixB sub cs

/-- Lowercased character stream of a string (Python `.lower()`,
character by character). -/
def lowerChars (s : String) : List Char := s.toList.map Char.toLower

/-- The text both keyword helpers scan:
`f"{title} {snippet}".lower()`. -/
def itemText (i : Item) : List Char := lowerChars (i.title ++ " " ++ i.snippet)

/-- One keyword test `kw.lower() in text`. -/
def keywordHit (i : Item) (kw : String) : Bool :=
  isInfixB (lowerChars kw) (itemText i)

/-- `summarizer._keyword_tags`: keywords found in title+snippet, first 6. -/
def keyword_tags (i : Item) (keywords : List String) : List String :=
  (keywords.filter (fun kw => keywordHit i kw)).take 6

/-- `summarizer._keyword_score`: `min(100, hits * 15 + 10)`. -/
def keyword_score (i : Item) (keywords : List String) : Int :=
  min 100 (((keywords.filter (fun kw => keywordHit i kw)).length : Int) * 15 + 10)

/-- `summarizer._fallback_summarize`. -/
def fallback_summarize (items : List Item) (keywords : List String) :
    List SummaryResult :=
  items.map (fun i =>
    { id := i.id,
      summary := (if i.snippet = "" then "No summary available." else i.snippet).take 200,
      why_it_matters := "Matched by keyword relevance (no LLM key set).",
      tags := keyword_tags i keywords,
      relevance_score := keyword_score i keywords })

/-- `summarizer.summarize_items`: with no API key the pure fallback runs;
otherwise each item goes through the external LLM call (`llm`), with a
per-item degraded result when that call raises. -/
def summarize_items (items : List Item) (keywords : List String)
    (api_key : String) (llm : Item → Except String SummaryResult) :
    List SummaryResult :=
  if api_key = "" then fallback_summarize items keywords
  else
    items.map (fun i =>
      match llm i with
      | Except.ok r => r
      | Except.error _ =>
          { id := i.id, summary := i.snippet.take 200,
            why_it_matters := "Summary unavailable (LLM error).",
            tags := keyword_tags i keywords,
            relevance_score := keyword_score i keywords })

/-! Feedback endpoint (`digest_server._Handler._handle_feedback`).  The
handler validates the vote, records it, reranks, and answers 200; any
raise inside the `try` (including the vote check) is answered as a 400
with no store call made after the raise. -/

/-- The JSON reply of the feedback endpoint. -/
structure ApiResponse where
  code : Nat
  ok : Bool
deriving Repr, DecidableEq

/-- `_handle_feedback` after JSON parsing: a vote other than +1 or -1
raises before any store access, answered as 400 with the store
untouched; otherwise `record_feedback` then `recalculate_scores` run
and the reply is 200. -/
def handle_feedback (db : DB) (item_id vote : Int) : ApiResponse × DB :=
  if vote = 1 ∨ vote = -1 then
    ({ code := 200, ok := true }, recalculate_scores (record_feedback db item_id vote))
  else
    ({ code := 400, ok := false }, db)

/-! Refresh orchestration (`app.SignalScoutApp._do_refresh`).  The
collector and summarizer are external calls and enter as parameters;
store and summarizer failures inside the guarded body are modelled as
`Except` values / fault injections. -/

/-- A collector result dict (`collector.fetch_feeds` output shape). -/
structure Candidate where
  title : String
  url : String
  source : String
  published_at : String
  snippet : String
deriving Repr, DecidableEq

/-- Step 1 of the refresh body: insert every collected candidate through
the dedup insert, counting the new ones.  `faults` injects a store
error into individual inserts. -/
def insert_collected (db : DB) (collected : List Candidate)
    (faults : Candidate → Option String) : DB × Nat :=
  collected.foldl
    (fun acc c =>
      match insert_item acc.1 c.url c.title c.source c.published_at c.snippet
          (faults c) with
      | (isNew, db') => (db', acc.2 + if isNew then 1 else 0))
    (db, 0)

/-- Step 3 write-back loop: persist each summarizer result. -/
def apply_summaries (db : DB) (results : List SummaryResult) : DB :=
  results.foldl
    (fun d r => update_summary d r.id r.summary r.why_it_matters r.tags
      r.relevance_score) db

/-- The app-level mutable state touched by `_do_refresh`: the store, the
`_refreshing` single-flight flag, and the published status string. -/
structure AppState where
  db : DB
  refreshing : Bool := false
  status : String := "Not yet refreshed"
deriving Repr, DecidableEq

/-- The error status `f"Refresh failed – {str(exc)[:45]}"`. -/
def fail_status (e : String) : String := "Refresh failed – " ++ e.take 45

/-- The success status
`f"Updated {HH:MM} · {total} items{key_note}"`. -/
def ok_status (timeStr : String) (total : Nat) (hasKey : Bool) : String :=
  "Updated " ++ timeStr ++ " · " ++ toString total ++ " items"
    ++ (if hasKey then "" else " · no-key mode")

/-- `_do_refresh` at the granularity of one whole call: the guard check,
then collect → insert → summarize → rescore → status, with the
`try/except/finally` semantics.  `summarizer` is the external
summarize call (an `Except.error` is a raise out of step 3);
`rescoreFault` injects a store error at the rescore step (step 4);
`insFaults` injects per-insert store errors into step 1 (these are
swallowed inside `insert_item`).  The `finally` clears the flag on
every path that entered the body. -/
def do_refresh (st : AppState) (collected : List Candidate)
    (insFaults : Candidate → Option String)
    (summarizer : List Item → Except String (List SummaryResult))
    (rescoreFault : Option String) (timeStr : String) (hasKey : Bool) :
    AppState :=
  if st.refreshing then st
  else
    let db1 := (insert_collected st.db collected insFaults).1
    let batch := get_unsummarized_items db1 30
    let afterSum : Except String DB :=
      if batch.isEmpty then Except.ok db1
      else
        match summarizer batch with
        | Except.error e => Except.error e
        | Except.ok results => Except.ok (apply_summaries db1 results)
    match afterSum with
    | Except.error e =>
        { db := db1, refreshing := false, status := fail_status e }
    | Except.ok db2 =>
        match rescoreFault with
        | some e => { db := db2, refreshing := false, status := fail_status e }
        | none =>
            let db3 := recalculate_scores db2
            { db := db3, refreshing := false,
              status := ok_status timeStr db3.items.length hasKey }

/-! Fine-grained interleaving model of the single-flight guard.  In
`_do_refresh` the check `if self._refreshing: return` and the write
`self._refreshing = True` are two separate statements; CPython may
switch threads between them.  A thread is modelled by a program
counter: 0 = about to check the flag, 1 = passed the check but not yet
set the flag, 2 = inside the refresh body (an active cycle), 3 =
returned.  `didWork` records that the thread executed the refresh
steps. -/

structure RefreshThread where
  pc : Nat := 0
  didWork : Bool := false
deriving Repr, DecidableEq

/-- The shared `_refreshing` flag plus two trigger threads. -/
structure GuardState where
  flag : Bool := false
  t1 : RefreshThread := {}
  t2 : RefreshThread := {}
deriving Repr, DecidableEq

/-- One atomic step of one thread against the shared flag. -/
def thread_step (flag : Bool) (t : RefreshThread) : Bool × RefreshThread :=
  if t.pc = 0 then
    if flag then (flag, { t with pc := 3 }) else (flag, { t with pc := 1 })
  else if t.pc = 1 then (true, { t with pc := 2 })
  else if t.pc = 2 then (false, { t with pc := 3, didWork := true })
  else (flag, t)

/-- Scheduler step: `who = true` runs thread 1, else thread 2. -/
def guard_step (s : GuardState) (who : Bool) : GuardState :=
  if who then
    match thread_step s.flag s.t1 with
    | (f, t) => { s with flag := f, t1 := t }
  else
    match thread_step s.flag s.t2 with
    | (f, t) => { s with flag := f, t2 := t }

/-- Run a schedule (a list of thread choices). -/
def guard_run (sched : List Bool) (s : GuardState) : GuardState :=
  sched.foldl guard_step s

/-! Helper lemmas. -/

/-- `update_final_score` writes only the `items` column. -/
lemma update_final_score_fields (db : DB) (item_id s : Int) :
    (update_final_score db item_id s).feedback = db.feedback ∧
    (update_final_score db item_id s).tagWeights = db.tagWeights ∧
    (update_final_score db item_id s).sourceWeights = db.sourceWeights := by
  unfold update_final_score
  exact ⟨rfl, rfl, rfl⟩

/-- The rescoring fold writes only `items`. -/
lemma recalc_foldl_fields (db : DB) (L : List Item) (d : DB) :
    ((L.foldl (fun d it => update_final_score d it.id (rank_of db it)) d)).feedback
        = d.feedback ∧
    ((L.foldl (fun d it => update_final_score d it.id (rank_of db it)) d)).tagWeights
        = d.tagWeights ∧
    ((L.foldl (fun d it => update_final_score d it.id (rank_of db it)) d)).sourceWeights
        = d.sourceWeights := by
  induction L generalizing d with
  | nil => exact ⟨rfl, rfl, rfl⟩
  | cons a L ih =>
      simp only [List.foldl_cons]
      refine ⟨?_, ?_, ?_⟩
      · rw [(ih (update_final_score d a.id (rank_of db a))).1,
          (update_final_score_fields d a.id (rank_of db a)).1]
      · rw [(ih (update_final_score d a.id (rank_of db a))).2.1,
          (update_final_score_fields d a.id (rank_of db a)).2.1]
      · rw [(ih (update_final_score d a.id (rank_of db a))).2.2,
          (update_final_score_fields d a.id (rank_of db a)).2.2]

/-- `recalculate_scores` writes only `items`. -/
lemma recalculate_scores_fields (d : DB) :
    (recalculate_scores d).feedback = d.feedback ∧
    (recalculate_scores d).tagWeights = d.tagWeights ∧
    (recalculate_scores d).sourceWeights = d.sourceWeights :=
  recalc_foldl_fields d (get_all_summarized_items d) d

/-- After a dropped thread-2 trigger (pc 3), no schedule ever changes
thread 2 again. -/
lemma guard_run_done (sched : List Bool) :
    ∀ s : GuardState, s.t2.pc = 3 →
      (guard_run sched s).t2 = s.t2 := by
  induction sched with
  | nil => intro s _; rfl
  | cons who rest ih =>
      intro s h
      have hstep : (guard_step s who).t2 = s.t2 := by
        cases who <;> unfold guard_step thread_step <;> simp [h]
      have hpc : (guard_step s who).t2.pc = 3 := by rw [hstep]; exact h
      calc (guard_run (who :: rest) s).t2
          = (guard_run rest (guard_step s who)).t2 := rfl
        _ = (guard_step s who).t2 := ih _ hpc
        _ = s.t2 := hstep

/-! Claim theorems. -/

/-- C4: a feedback write whose vote is neither +1 nor -1 is rejected
with a 400 error and performs no mutation at all: the store (feedback
rows, tag weights, source weights, items) is returned unchanged. -/
theorem handle_feedback_invalid_vote (db : DB) (item_id vote : Int)
    (h1 : vote ≠ 1) (h2 : vote ≠ -1) :
    (handle_feedback db item_id vote).1.code = 400 ∧
    (handle_feedback db item_id vote).1.ok = false ∧
    (handle_feedback db item_id vote).2 = db := by
  unfold handle_feedback
  rw [if_neg (by rintro (h | h); exact h1 h; exact h2 h)]
  exact ⟨rfl, rfl, rfl⟩

/-- A one-item store used by the invalid-vote witness. -/
def wDB4 : DB :=
  { items := [{ id := 9, url := "u", title := "t", source := "s",
                publishedAt := "p", snippet := "n" }] }

/-- Witness for C4: vote 2 on a store holding item 9 is answered 400 and
the store is untouched. -/
theorem handle_feedback_invalid_vote_witness :
    ((2 : Int) ≠ 1 ∧ (2 : Int) ≠ -1) ∧
    ((handle_feedback wDB4 9 2).1.code = 400 ∧
     (handle_feedback wDB4 9 2).1.ok = false ∧
     (handle_feedback wDB4 9 2).2 = wDB4) :=
  ⟨⟨by decide, by decide⟩,
   handle_feedback_invalid_vote wDB4 9 2 (by decide) (by decide)⟩

/-- The two branch lemmas of the dedup insert body, and the catch
semantics of the wrapper. -/
lemma insert_item_none (db : DB) (u t s p n : String) :
    insert_item db u t s p n none = insert_item_txn db u t s p n := rfl

/-- A store fault is caught: not-new, store unchanged. -/
lemma insert_item_fault (db : DB) (u t s p n e : String) :
    insert_item db u t s p n (some e) = (false, db) := rfl

/-- Duplicate URL: the dedup body is a no-op. -/
lemma insert_item_txn_dup (db : DB) (u t s p n : String)
    (h : db.items.any (fun i => i.url == u) = true) :
    insert_item_txn db u t s p n = (false, db) := by
  unfold insert_item_txn
  rw [h]
  simp

/-- Fresh URL: the dedup body appends exactly one defaulted row. -/
lemma insert_item_txn_new (db : DB) (u t s p n : String)
    (h : db.items.any (fun i => i.url == u) = false) :
    insert_item_txn db u t s p n
      = (true,
         { db with
             items := db.items ++
               [{ id := db.nextId, url := u, title := t, source := s,
                  publishedAt := p, snippet := n, createdAt := db.clock }],
             nextId := db.nextId + 1, clock := db.clock + 1 }) := by
  unfold insert_item_txn
  rw [h]
  simp

/-- C9: inserting a URL not yet present succeeds; re-inserting that URL
(whatever the other fields) reports not-new, leaves the whole store —
including the existing record's fields — unchanged, and exactly one
item record with that URL remains; in general the insert reports true
iff it created a new record. -/
theorem insert_item_dedup (db : DB)
    (url title source pub snip title2 source2 pub2 snip2 : String)
    (hfresh : ∀ i ∈ db.items, i.url ≠ url) :
    (insert_item db url title source pub snip none).1 = true ∧
    (insert_item (insert_item db url title source pub snip none).2
        url title2 source2 pub2 snip2 none).1 = false ∧
    (insert_item (insert_item db url title source pub snip none).2
        url title2 source2 pub2 snip2 none).2
      = (insert_item db url title source pub snip none).2 ∧
    (((insert_item db url title source pub snip none).2).items.filter
        (fun i => i.url == url)).length = 1 ∧
    (∀ (d : DB) (u t s p n : String),
       (insert_item d u t s p n none).1 = true ↔
       (insert_item d u t s p n none).2.items.length = d.items.length + 1) := by
  have hany : db.items.any (fun i => i.url == url) = false := by
    simp only [List.any_eq_false, beq_iff_eq]
    exact hfresh
  have hfirst := insert_item_txn_new db url title source pub snip hany
  have hany2 : ((insert_item db url title source pub snip none).2).items.any
      (fun i => i.url == url) = true := by
    rw [insert_item_none, hfirst]
    simp
  have hsecond := insert_item_txn_dup
    (insert_item db url title source pub snip none).2 url title2 source2 pub2 snip2 hany2
  refine ⟨by rw [insert_item_none, hfirst], ?_, ?_, ?_, ?_⟩
  · rw [insert_item_none (insert_item db url title source pub snip none).2, hsecond]
  · rw [insert_item_none (insert_item db url title source pub snip none).2, hsecond]
  · rw [insert_item_none, hfirst]
    have hfiltold : db.items.filter (fun i => i.url == url) = [] := by
      rw [List.filter_eq_nil_iff]
      intro i hi
      simp only [beq_iff_eq]
      exact hfresh i hi
    simp [List.filter_append, hfiltold]
  · intro d u t s p n
    rw [insert_item_none]
    rcases hc : d.items.any (fun i => i.url == u) with hf | ht
    · rw [insert_item_txn_new d u t s p n hc]
      simp
    · rw [insert_item_txn_dup d u t s p n hc]
      simp

/-- A fresh-then-duplicate witness store for the dedup claim. -/
def wDB9 : DB :=
  { items := [{ id := 1, url := "https://a", title := "t", source := "s",
                publishedAt := "p", snippet := "n" }] }

/-- Witness for C9 at a concrete store: url `https://b` is fresh in
`wDB9`, the first insert reports new and the second reports not-new
with the store unchanged. -/
theorem insert_item_dedup_witness :
    (∀ i ∈ wDB9.items, i.url ≠ "https://b") ∧
    (insert_item wDB9 "https://b" "t1" "s1" "p1" "n1" none).1 = true ∧
    (insert_item (insert_item wDB9 "https://b" "t1" "s1" "p1" "n1" none).2
        "https://b" "t2" "s2" "p2" "n2" none).1 = false ∧
    (insert_item (insert_item wDB9 "https://b" "t1" "s1" "p1" "n1" none).2
        "https://b" "t2" "s2" "p2" "n2" none).2
      = (insert_item wDB9 "https://b" "t1" "s1" "p1" "n1" none).2 ∧
    (((insert_item wDB9 "https://b" "t1" "s1" "p1" "n1" none).2).items.filter
        (fun i => i.url == "https://b")).length = 1 := by
  have h := insert_item_dedup wDB9 "https://b" "t1" "s1" "p1" "n1" "t2" "s2" "p2" "n2"
    (by decide)
  exact ⟨by decide, h.1, h.2.1, h.2.2.1, h.2.2.2.1⟩

/-- C10: a store error raised inside `insert_item` is caught and
reported exactly as the duplicate-URL no-op is — `(False, unchanged
store)` — for every input; consequently a refresh insert loop in which
every insert hits a store error still completes, with zero items
counted as new, rather than aborting the cycle. -/
theorem insert_item_store_error (db : DB) (url title source pub snip e : String)
    (hdup : ∃ i ∈ db.items, i.url = url) :
    insert_item db url title source pub snip (some e) = (false, db) ∧
    insert_item db url title source pub snip none = (false, db) ∧
    insert_item db url title source pub snip (some e)
      = insert_item db url title source pub snip none ∧
    (∀ (d : DB) (cs : List Candidate),
       insert_collected d cs (fun _ => some e) = (d, 0)) := by
  have hany : db.items.any (fun i => i.url == url) = true := by
    simp only [List.any_eq_true, beq_iff_eq]
    exact hdup
  have h2 : insert_item db url title source pub snip none = (false, db) := by
    rw [insert_item_none]
    exact insert_item_txn_dup db url title source pub snip hany
  refine ⟨rfl, h2, by rw [h2]; rfl, ?_⟩
  intro d cs
  induction cs generalizing d with
  | nil => rfl
  | cons c rest ih => exact ih d

/-- A store whose single item carries the duplicated URL, for the
store-error witness. -/
def wDB10 : DB :=
  { items := [{ id := 1, url := "https://a", title := "t", source := "s",
                publishedAt := "p", snippet := "n" }] }

/-- The single item of `wDB10`, named for the witness. -/
def wItem10 : Item :=
  { id := 1, url := "https://a", title := "t", source := "s",
    publishedAt := "p", snippet := "n" }

/-- A candidate row for the store-error witness. -/
def wCand10 : Candidate :=
  { title := "t", url := "https://a", source := "s",
    published_at := "p", snippet := "n" }

/-- Witness for C10: on `wDB10`, a store error and a duplicate insert of
url `https://a` give the identical `(false, unchanged)` outcome, and an
all-faulting insert loop over one candidate returns the store intact
with zero new items. -/
theorem insert_item_store_error_witness :
    (∃ i ∈ wDB10.items, i.url = "https://a") ∧
    insert_item wDB10 "https://a" "t" "s" "p" "n" (some "disk error") = (false, wDB10) ∧
    insert_item wDB10 "https://a" "t" "s" "p" "n" none = (false, wDB10) ∧
    insert_collected wDB10 [wCand10] (fun _ => some "disk error") = (wDB10, 0) := by
  have h := insert_item_store_error wDB10 "https://a" "t" "s" "p" "n" "disk error"
    ⟨wItem10, by decide, rfl⟩
  exact ⟨⟨wItem10, by decide, rfl⟩, h.1, h.2.1, h.2.2.2 wDB10 [wCand10]⟩

/-- Counterexample to C2: the guard check and the flag write are two
separate statements, so the schedule check/check/set/set from the idle
state puts both trigger threads inside the refresh body at once (both
program counters read 2), and continuing the schedule has both threads
perform the refresh steps — two simultaneously active cycles, and a
second trigger that is not a no-op. -/
theorem single_flight_race :
    (guard_run [true, false, true, false] {}).t1.pc = 2 ∧
    (guard_run [true, false, true, false] {}).t2.pc = 2 ∧
    (guard_run [true, false, true, false, true, false] {}).t1.didWork = true ∧
    (guard_run [true, false, true, false, true, false] {}).t2.didWork = true := by
  decide

/-- C2 amended: a trigger whose guard check observes the `_refreshing`
flag already set returns immediately — it performs none of the refresh
steps under any continuation of the schedule — and the drop has no
effect on the flag or the running thread.  (The unamended claim's
"at most one cycle active" part fails when two triggers race between
check and set; see the counterexample.) -/
theorem refresh_trigger_dropped (s : GuardState) (sched : List Bool)
    (hflag : s.flag = true) (hpc : s.t2.pc = 0) (hw : s.t2.didWork = false) :
    (guard_step s false).t2.pc = 3 ∧
    (guard_step s false).flag = s.flag ∧
    (guard_step s false).t1 = s.t1 ∧
    (guard_run sched (guard_step s false)).t2.didWork = false := by
  have h1 : guard_step s false
      = { s with t2 := { s.t2 with pc := 3 } } := by
    unfold guard_step thread_step
    simp [hpc, hflag]
  refine ⟨by rw [h1], by rw [h1], by rw [h1], ?_⟩
  have hdone : (guard_step s false).t2.pc = 3 := by rw [h1]
  rw [guard_run_done sched (guard_step s false) hdone, h1]
  exact hw

/-- A guard state with a cycle running on thread 1 (flag set, thread 1
inside the body) and thread 2 about to trigger. -/
def wGS2 : GuardState :=
  { flag := true, t1 := { pc := 2 }, t2 := {} }

/-- Witness for the amended C2: from `wGS2` the second trigger is
dropped at its check and stays workless across a schedule that lets
thread 1 finish and thread 2 run twice more. -/
theorem refresh_trigger_dropped_witness :
    (wGS2.flag = true ∧ wGS2.t2.pc = 0 ∧ wGS2.t2.didWork = false) ∧
    ((guard_step wGS2 false).t2.pc = 3 ∧
     (guard_step wGS2 false).flag = wGS2.flag ∧
     (guard_step wGS2 false).t1 = wGS2.t1 ∧
     (guard_run [true, false, false] (guard_step wGS2 false)).t2.didWork = false) :=
  ⟨⟨rfl, rfl, rfl⟩,
   refresh_trigger_dropped wGS2 [true, false, false] rfl rfl rfl⟩

/-- Counterexample to C3: on an empty store (so item 1 does not exist),
the feedback endpoint answers 200/ok — the caller is told success, not
an ItemNotFound error — and the feedback row is still appended, so the
mutation is not skipped. -/
theorem feedback_unknown_item_no_error :
    (({} : DB).items.find? (fun i => i.id == 1) = none) ∧
    (handle_feedback {} 1 1).1.ok = true ∧
    (handle_feedback {} 1 1).1.code = 200 ∧
    (handle_feedback {} 1 1).2.feedback = [⟨1, 1⟩] := by
  decide

/-- C3 amended: a valid vote on an item id with no item row does not
fail: the feedback event is still appended (the insert precedes the
lookup and commits), no tag or source weight changes, and the caller
receives a 200 success response. -/
theorem record_feedback_unknown_item (db : DB) (item_id vote : Int)
    (hv : vote = 1 ∨ vote = -1)
    (habsent : db.items.find? (fun i => i.id == item_id) = none) :
    (handle_feedback db item_id vote).1.ok = true ∧
    (handle_feedback db item_id vote).1.code = 200 ∧
    (handle_feedback db item_id vote).2.feedback
      = db.feedback ++ [⟨item_id, vote⟩] ∧
    (handle_feedback db item_id vote).2.tagWeights = db.tagWeights ∧
    (handle_feedback db item_id vote).2.sourceWeights = db.sourceWeights := by
  have hrec : record_feedback db item_id vote
      = { db with feedback := db.feedback ++ [⟨item_id, vote⟩] } := by
    simp [record_feedback, habsent]
  have hh : handle_feedback db item_id vote
      = ({ code := 200, ok := true },
         recalculate_scores (record_feedback db item_id vote)) := by
    unfold handle_feedback
    rw [if_pos hv]
  rw [hh, hrec]
  have hfields := recalculate_scores_fields
    { db with feedback := db.feedback ++ [⟨item_id, vote⟩] }
  exact ⟨rfl, rfl, hfields.1, hfields.2.1, hfields.2.2⟩

/-- A store with one (summarized) item id 1 and no item id 2, for the
unknown-item witness. -/
def wDB3 : DB :=
  { items := [{ id := 1, url := "u", title := "t", source := "s",
                publishedAt := "p", snippet := "n", tags := ["a"],
                summarized := true }],
    tagWeights := [("a", 3)], sourceWeights := [("s", 2)] }

/-- Witness for the amended C3: voting +1 on the absent item id 2 in
`wDB3` answers 200, appends the event, and leaves both weight tables
exactly as they were. -/
theorem record_feedback_unknown_item_witness :
    (((1 : Int) = 1 ∨ (1 : Int) = -1) ∧
      wDB3.items.find? (fun i => i.id == 2) = none) ∧
    ((handle_feedback wDB3 2 1).1.ok = true ∧
     (handle_feedback wDB3 2 1).1.code = 200 ∧
     (handle_feedback wDB3 2 1).2.feedback = wDB3.feedback ++ [⟨2, 1⟩] ∧
     (handle_feedback wDB3 2 1).2.tagWeights = wDB3.tagWeights ∧
     (handle_feedback wDB3 2 1).2.sourceWeights = wDB3.sourceWeights) :=
  ⟨⟨Or.inl rfl, by decide⟩,
   record_feedback_unknown_item wDB3 2 1 (Or.inl rfl) (by decide)⟩

/-- Every stored tag weight and source weight lies in [-10, 10]. -/
def weightsInRange (db : DB) : Prop :=
  (∀ p ∈ db.tagWeights, -10 ≤ p.2 ∧ p.2 ≤ 10) ∧
  (∀ p ∈ db.sourceWeights, -10 ≤ p.2 ∧ p.2 ≤ 10)

/-- A sequence of `record_feedback` calls. -/
def recordVotes (db : DB) (votes : List (Int × Int)) : DB :=
  votes.foldl (fun d v => record_feedback d v.1 v.2) db

/-- `record_feedback` with the local binding resolved. -/
lemma record_feedback_eq (db : DB) (item_id vote : Int) :
    record_feedback db item_id vote
      = (match db.items.find? (fun i => i.id == item_id) with
         | some item =>
             adjust_source_weight
               (item.tags.foldl (fun d t => adjust_tag_weight d t vote)
                 { db with feedback := db.feedback ++ [⟨item_id, vote⟩] })
               item.source vote
         | none => { db with feedback := db.feedback ++ [⟨item_id, vote⟩] }) := rfl

lemma clampW_range (x : Int) : -10 ≤ clampW x ∧ clampW x ≤ 10 := by
  unfold clampW
  exact ⟨le_max_left _ _, max_le (by norm_num) (min_le_left _ _)⟩

lemma storeWeight_range (ws : List (String × Int)) (k : String) (v : Int)
    (hws : ∀ p ∈ ws, -10 ≤ p.2 ∧ p.2 ≤ 10) (hv : -10 ≤ v ∧ v ≤ 10) :
    ∀ p ∈ storeWeight ws k v, -10 ≤ p.2 ∧ p.2 ≤ 10 := by
  intro p hp
  unfold storeWeight at hp
  by_cases h : ws.any (fun q => q.1 == k) = true
  · rw [if_pos h] at hp
    obtain ⟨q, hq, hqe⟩ := List.mem_map.mp hp
    by_cases hqk : q.1 == k
    · rw [if_pos hqk] at hqe
      rw [← hqe]
      exact hv
    · rw [if_neg hqk] at hqe
      rw [← hqe]
      exact hws q hq
  · rw [if_neg h] at hp
    rcases List.mem_append.mp hp with h1 | h1
    · exact hws p h1
    · rw [List.mem_singleton.mp h1]
      exact hv

lemma adjust_tag_weight_range (db : DB) (tag : String) (delta : Int)
    (h : weightsInRange db) :
    weightsInRange (adjust_tag_weight db tag delta) :=
  ⟨storeWeight_range db.tagWeights tag _ h.1 (clampW_range _), h.2⟩

lemma adjust_source_weight_range (db : DB) (source : String) (delta : Int)
    (h : weightsInRange db) :
    weightsInRange (adjust_source_weight db source delta) :=
  ⟨h.1, storeWeight_range db.sourceWeights source _ h.2 (clampW_range _)⟩

lemma foldl_adjust_tag_range (vote : Int) (tags : List String) :
    ∀ db : DB, weightsInRange db →
      weightsInRange (tags.foldl (fun d t => adjust_tag_weight d t vote) db) := by
  induction tags with
  | nil => intro db h; exact h
  | cons t ts ih => intro db h; exact ih _ (adjust_tag_weight_range db t vote h)

lemma record_feedback_range (db : DB) (item_id vote : Int)
    (h : weightsInRange db) :
    weightsInRange (record_feedback db item_id vote) := by
  rw [record_feedback_eq]
  cases hfind : db.items.find? (fun i => i.id == item_id) with
  | none => exact h
  | some item =>
      exact adjust_source_weight_range _ item.source vote
        (foldl_adjust_tag_range vote item.tags _ h)

lemma recordVotes_range (votes : List (Int × Int)) :
    ∀ db : DB, weightsInRange db → weightsInRange (recordVotes db votes) := by
  induction votes with
  | nil => intro db h; exact h
  | cons v vs ih => intro db h; exact ih _ (record_feedback_range db v.1 v.2 h)

/-- A store with one item (id 1) tagged `t`, for the 50-votes clause. -/
def wDB5 : DB :=
  { items := [{ id := 1, url := "u", title := "t", source := "s",
                publishedAt := "p", snippet := "n", tags := ["t"],
                summarized := true }] }

set_option maxRecDepth 100000 in
/-- C5: starting from any store whose weights are within [-10, 10],
every tag weight and source weight is still within [-10, 10] after any
sequence of recorded votes; and 50 consecutive +1 votes on the item
tagged `t` leave tag `t`'s weight at exactly +10. -/
theorem weights_clamped (db : DB) (votes : List (Int × Int))
    (h : weightsInRange db) :
    weightsInRange (recordVotes db votes) ∧
    get_tag_weight (recordVotes wDB5 (List.replicate 50 (1, 1))) "t" = 10 := by
  exact ⟨recordVotes_range votes db h, by decide⟩

/-- Witness for C5: the empty-weights store `wDB5` is in range, and so
is its state after 50 recorded +1 votes, with tag `t` pinned at 10. -/
theorem weights_clamped_witness :
    weightsInRange wDB5 ∧
    (weightsInRange (recordVotes wDB5 (List.replicate 50 (1, 1))) ∧
     get_tag_weight (recordVotes wDB5 (List.replicate 50 (1, 1))) "t" = 10) :=
  ⟨⟨by simp [wDB5], by simp [wDB5]⟩,
   weights_clamped wDB5 (List.replicate 50 (1, 1)) ⟨by simp [wDB5], by simp [wDB5]⟩⟩

/-- The per-item effect of one `update_final_score` write during the
rescoring pass. -/
def score_upd (db : DB) (it j : Item) : Item :=
  if j.id == it.id then { j with finalScore := rank_of db it } else j

/-- The rescoring fold, viewed on the items column. -/
lemma recalc_items_foldl (db : DB) (L : List Item) (d : DB) :
    (L.foldl (fun d it => update_final_score d it.id (rank_of db it)) d).items
      = L.foldl (fun js it => js.map (score_upd db it)) d.items := by
  induction L generalizing d with
  | nil => rfl
  | cons a L ih =>
      simp only [List.foldl_cons]
      rw [ih (update_final_score d a.id (rank_of db a))]
      rfl

/-- A fold of pointwise maps is the map of pointwise folds. -/
lemma foldl_map_swap (g : Item → Item → Item) (L : List Item) :
    ∀ js : List Item,
      L.foldl (fun js it => js.map (g it)) js
        = js.map (fun j => L.foldl (fun j it => g it j) j) := by
  induction L with
  | nil => intro js; simp
  | cons a L ih =>
      intro js
      simp only [List.foldl_cons]
      rw [ih (js.map (g a)), List.map_map]
      rfl

/-- Writes targeted at other ids leave an item unchanged. -/
lemma fold_notouch (db : DB) (M : List Item) :
    ∀ x : Item, (∀ it ∈ M, x.id ≠ it.id) →
      M.foldl (fun x it => score_upd db it x) x = x := by
  induction M with
  | nil => intro x _; rfl
  | cons a M ih =>
      intro x h
      have h1 : score_upd db a x = x := by
        unfold score_upd
        rw [if_neg]
        simp only [beq_iff_eq]
        exact h a (List.mem_cons_self a M)
      simp only [List.foldl_cons, h1]
      exact ih x (fun it hit => h it (List.mem_cons_of_mem a hit))

/-- When ids are unique, the fold over a list containing `j` rewrites an
item with `j`'s id to carry exactly `j`'s recomputed rank. -/
lemma fold_pick (db : DB) (L : List Item) :
    ∀ j k : Item, k.id = j.id → j ∈ L → (L.map Item.id).Nodup →
      L.foldl (fun x it => score_upd db it x) k
        = { k with finalScore := rank_of db j } := by
  induction L with
  | nil => intro j k _ hj _; cases hj
  | cons a L ih =>
      intro j k hk hj hnd
      rw [List.map_cons, List.nodup_cons] at hnd
      obtain ⟨hna, hnd'⟩ := hnd
      rcases List.mem_cons.mp hj with rfl | hjL
      · have h1 : score_upd db j k = { k with finalScore := rank_of db j } := by
          unfold score_upd
          rw [if_pos]
          simp only [beq_iff_eq]
          exact hk
        simp only [List.foldl_cons, h1]
        apply fold_notouch
        intro it hit he
        apply hna
        have h2 : j.id = it.id := by
          rw [← hk]
          exact he
        rw [h2]
        exact List.mem_map_of_mem Item.id hit
      · have hka : k.id ≠ a.id := by
          intro he
          exact hna (by rw [← he, hk]; exact List.mem_map_of_mem Item.id hjL)
        have h1 : score_upd db a k = k := by
          unfold score_upd
          rw [if_neg]
          simp only [beq_iff_eq]
          exact hka
        simp only [List.foldl_cons, h1]
        exact ih j k hk hjL hnd'

/-- The items column after a full rescoring pass. -/
lemma recalculate_scores_items (db : DB) :
    (recalculate_scores db).items
      = db.items.map (fun j =>
          (get_all_summarized_items db).foldl (fun x it => score_upd db it x) j) := by
  unfold recalculate_scores
  rw [recalc_items_foldl, foldl_map_swap]

/-- C1: under unique item ids (the table's primary key), the full
recompute writes, for every summarized item, a rank equal to its
relevance estimate plus the sum of its tags' weights plus its source's
weight; a tag or source with no stored weight row contributes 0. -/
theorem recalculate_scores_rank_formula (db : DB)
    (huniq : (db.items.map Item.id).Nodup)
    (i : Item) (hi : i ∈ db.items) (hs : i.summarized = true) :
    ({ i with finalScore := i.relevanceScore
        + (i.tags.map (fun t => get_tag_weight db t)).sum
        + get_source_weight db i.source } ∈ (recalculate_scores db).items) ∧
    (∀ t, db.tagWeights.find? (fun p => p.1 == t) = none →
       get_tag_weight db t = 0) ∧
    (∀ s, db.sourceWeights.find? (fun p => p.1 == s) = none →
       get_source_weight db s = 0) := by
  refine ⟨?_, ?_, ?_⟩
  · rw [recalculate_scores_items]
    have hiL : i ∈ get_all_summarized_items db := by
      unfold get_all_summarized_items
      rw [List.mem_filter]
      exact ⟨hi, hs⟩
    have hsub : List.Sublist ((get_all_summarized_items db).map Item.id)
        (db.items.map Item.id) :=
      List.Sublist.map Item.id (List.filter_sublist db.items)
    have hnodup : ((get_all_summarized_items db).map Item.id).Nodup :=
      List.Nodup.sublist hsub huniq
    have hfold := fold_pick db (get_all_summarized_items db) i i rfl hiL hnodup
    exact List.mem_map.mpr ⟨i, hi, by rw [hfold]; rfl⟩
  · intro t ht
    unfold get_tag_weight lookupWeight
    rw [ht]
  · intro s hs2
    unfold get_source_weight lookupWeight
    rw [hs2]

/-- The worked rank-formula example: one summarized item with relevance
50, tags `a` (+3) and `b` (-1), from source `src` (+2). -/
def wItem1 : Item :=
  { id := 1, url := "u", title := "t", source := "src",
    publishedAt := "p", snippet := "n", tags := ["a", "b"],
    relevanceScore := 50, summarized := true }

/-- Store for the rank-formula witness. -/
def wDB1 : DB :=
  { items := [wItem1], tagWeights := [("a", 3), ("b", -1)],
    sourceWeights := [("src", 2)] }

/-- Witness for C1: in `wDB1` the recompute gives the worked example's
rank 50 + 3 - 1 + 2 = 54. -/
theorem recalculate_scores_rank_formula_witness :
    ((wDB1.items.map Item.id).Nodup ∧ wItem1 ∈ wDB1.items ∧
      wItem1.summarized = true) ∧
    ({ wItem1 with finalScore := 54 } ∈ (recalculate_scores wDB1).items) := by
  have h := recalculate_scores_rank_formula wDB1 (by decide) wItem1
    (List.mem_singleton.mpr rfl) rfl
  exact ⟨⟨by decide, List.mem_singleton.mpr rfl, rfl⟩, h.1⟩

instance : IsTotal Item DigestOrder :=
  ⟨by
    intro a b
    unfold DigestOrder
    rcases lt_trichotomy a.finalScore b.finalScore with h | h | h
    · exact Or.inr (Or.inl h)
    · rcases Nat.le_total b.createdAt a.createdAt with hc | hc
      · exact Or.inl (Or.inr ⟨h.symm, hc⟩)
      · exact Or.inr (Or.inr ⟨h, hc⟩)
    · exact Or.inl (Or.inl h)⟩

instance : IsTrans Item DigestOrder :=
  ⟨by
    intro a b c hab hbc
    unfold DigestOrder at hab hbc ⊢
    rcases hab with h1 | ⟨h1, h1'⟩ <;> rcases hbc with h2 | ⟨h2, h2'⟩
    · exact Or.inl (h2.trans h1)
    · exact Or.inl (lt_of_le_of_lt (le_of_eq h2) h1)
    · exact Or.inl (lt_of_lt_of_eq h2 h1)
    · exact Or.inr ⟨h2.trans h1, h2'.trans h1'⟩⟩

/-- C7: the ranked read returns at most `limit` rows (the handler passes
the default 15), all of them summarized items of the store, listed in
digest order — rank descending with creation-time-descending
tiebreak — so that of two rows with equal rank the more recently
created one comes first. -/
theorem get_digest_items_spec (db : DB) (limit : Nat) :
    (get_digest_items db limit).length ≤ limit ∧
    (∀ p ∈ get_digest_items db limit, p.1.summarized = true ∧ p.1 ∈ db.items) ∧
    (get_digest_items db limit).Pairwise (fun p q => DigestOrder p.1 q.1) ∧
    (get_digest_items db limit).Pairwise
      (fun p q => p.1.finalScore = q.1.finalScore →
        q.1.createdAt ≤ p.1.createdAt) := by
  have hs : (List.insertionSort DigestOrder
      (db.items.filter (fun i => i.summarized))).Sorted DigestOrder :=
    List.sorted_insertionSort DigestOrder _
  have ht : ((List.insertionSort DigestOrder
      (db.items.filter (fun i => i.summarized))).take limit).Pairwise DigestOrder :=
    List.Pairwise.sublist (List.take_sublist _ _) hs
  unfold get_digest_items digest_ranked
  refine ⟨?_, ?_, ?_, ?_⟩
  · rw [List.length_map]
    exact List.length_take_le _ _
  · intro p hp
    obtain ⟨i, hi, rfl⟩ := List.mem_map.mp hp
    have hi' : i ∈ List.insertionSort DigestOrder
        (db.items.filter (fun i => i.summarized)) :=
      List.take_subset _ _ hi
    have hi'' : i ∈ db.items.filter (fun i => i.summarized) :=
      (List.perm_insertionSort DigestOrder _).subset hi'
    have hmem := List.mem_filter.mp hi''
    exact ⟨by simpa using hmem.2, hmem.1⟩
  · exact (List.pairwise_map).mpr ht
  · refine (List.pairwise_map).mpr (ht.imp ?_)
    intro a b h heq
    have heq' : a.finalScore = b.finalScore := heq
    show b.createdAt ≤ a.createdAt
    rcases h with h | h
    · omega
    · exact h.2

/-- C8: with no credential the summarizer is the keyword fallback: every
input item yields a result carrying the item's id, relevance estimate
min(100, 10 + 15 × number of configured keywords found in
title+snippet), and as tags exactly the found keywords capped at 6 —
so every emitted tag is a configured keyword occurring in the item's
text. -/
theorem summarize_no_key_fallback (items : List Item) (keywords : List String)
    (llm : Item → Except String SummaryResult) (i : Item) (hi : i ∈ items) :
    ∃ r ∈ summarize_items items keywords "" llm,
      r.id = i.id ∧
      r.relevance_score
        = min 100
            (10 + 15 * ((keywords.filter (fun kw => keywordHit i kw)).length : Int)) ∧
      r.tags = (keywords.filter (fun kw => keywordHit i kw)).take 6 ∧
      r.tags.length ≤ 6 ∧
      (∀ t ∈ r.tags, t ∈ keywords ∧ keywordHit i t = true) := by
  have hfall : summarize_items items keywords "" llm
      = fallback_summarize items keywords := by
    unfold summarize_items
    rw [if_pos rfl]
  rw [hfall]
  unfold fallback_summarize
  refine ⟨_, List.mem_map_of_mem _ hi, rfl, ?_, rfl, ?_, ?_⟩
  · show keyword_score i keywords = _
    unfold keyword_score
    congr 1
    ring
  · show (keyword_tags i keywords).length ≤ 6
    unfold keyword_tags
    exact List.length_take_le _ _
  · intro t ht
    replace ht : t ∈ keyword_tags i keywords := ht
    unfold keyword_tags at ht
    have h1 := List.take_subset _ _ ht
    have h2 := List.mem_filter.mp h1
    exact ⟨h2.1, h2.2⟩

/-- The worked fallback example: a title containing keyword `x` but not
`y`, with an empty snippet. -/
def wItem8 : Item :=
  { id := 7, url := "u", title := "x alone", source := "s",
    publishedAt := "p", snippet := "" }

/-- Witness for C8: with keywords x, y and no credential, `wItem8`
(title containing only x) gets relevance 25 and tags exactly x. -/
theorem summarize_no_key_fallback_witness :
    (wItem8 ∈ [wItem8]) ∧
    (∃ r ∈ summarize_items [wItem8] ["x", "y"] ""
        (fun _ => Except.error "no call"),
      r.id = 7 ∧ r.relevance_score = 25 ∧ r.tags = ["x"]) := by
  obtain ⟨r, hr, hid, hrel, htags, _, _⟩ :=
    summarize_no_key_fallback [wItem8] ["x", "y"]
      (fun _ => Except.error "no call") wItem8 (List.mem_singleton.mpr rfl)
  refine ⟨List.mem_singleton.mpr rfl, r, hr, ?_, ?_, ?_⟩
  · rw [hid]
    rfl
  · rw [hrel]
    decide
  · rw [htags]
    decide

/-- C6: with the guard observed clear, the refresh body's error paths:
a summarizer raise on a non-empty batch aborts the write-back and the
rescore, leaving the store as the insert step left it and publishing
the truncated error status; a store raise at the rescore step keeps the
summaries already written but publishes the truncated error status; on
every path — error or success — the `finally` clears the
single-flight flag, so the orchestrator returns to idle. -/
theorem refresh_error_aborts (st : AppState) (collected : List Candidate)
    (insFaults : Candidate → Option String)
    (summarizer : List Item → Except String (List SummaryResult))
    (rescoreFault : Option String) (timeStr : String) (hasKey : Bool)
    (hidle : st.refreshing = false) :
    (do_refresh st collected insFaults summarizer rescoreFault timeStr
        hasKey).refreshing = false ∧
    (∀ e,
       (get_unsummarized_items (insert_collected st.db collected insFaults).1
           30).isEmpty = false →
       summarizer (get_unsummarized_items
           (insert_collected st.db collected insFaults).1 30)
         = Except.error e →
       do_refresh st collected insFaults summarizer rescoreFault timeStr hasKey
         = { db := (insert_collected st.db collected insFaults).1,
             refreshing := false, status := fail_status e }) ∧
    (∀ e results,
       rescoreFault = some e →
       (get_unsummarized_items (insert_collected st.db collected insFaults).1
           30).isEmpty = false →
       summarizer (get_unsummarized_items
           (insert_collected st.db collected insFaults).1 30)
         = Except.ok results →
       do_refresh st collected insFaults summarizer rescoreFault timeStr hasKey
         = { db := apply_summaries
               (insert_collected st.db collected insFaults).1 results,
             refreshing := false, status := fail_status e }) ∧
    (∀ e,
       rescoreFault = some e →
       (get_unsummarized_items (insert_collected st.db collected insFaults).1
           30).isEmpty = true →
       do_refresh st collected insFaults summarizer rescoreFault timeStr hasKey
         = { db := (insert_collected st.db collected insFaults).1,
             refreshing := false, status := fail_status e }) := by
  refine ⟨?_, ?_, ?_, ?_⟩
  · unfold do_refresh
    simp only [hidle, Bool.false_eq_true, if_false]
    rcases hb : (get_unsummarized_items
        (insert_collected st.db collected insFaults).1 30).isEmpty with hf | ht
    · simp only [hb, Bool.false_eq_true, if_false]
      rcases hsum : summarizer (get_unsummarized_items
          (insert_collected st.db collected insFaults).1 30) with e | results
      · simp only [hsum]
      · simp only [hsum]
        cases rescoreFault <;> simp
    · simp only [hb, if_true]
      cases rescoreFault <;> simp
  · intro e hb hsum
    unfold do_refresh
    simp only [hidle, Bool.false_eq_true, if_false, hb, hsum]
  · intro e results hrf hb hsum
    unfold do_refresh
    simp only [hidle, Bool.false_eq_true, if_false, hb, hsum, hrf]
  · intro e hrf hb
    unfold do_refresh
    simp only [hidle, Bool.false_eq_true, if_false, hb, if_true, hrf]

/-- An idle app state holding one unsummarized item, for the refresh
error witness. -/
def wApp6 : AppState :=
  { db := { items := [{ id := 1, url := "u", title := "t", source := "s",
                        publishedAt := "p", snippet := "n" }] } }

/-- Witness for C6: from idle `wApp6`, a summarizer raise of `boom` on
the non-empty batch ends the cycle idle (flag clear) with the inserts
kept and the status `Refresh failed – boom`. -/
theorem refresh_error_aborts_witness :
    wApp6.refreshing = false ∧
    ((do_refresh wApp6 [] (fun _ => none) (fun _ => Except.error "boom")
        none "12:00" false).refreshing = false ∧
     do_refresh wApp6 [] (fun _ => none) (fun _ => Except.error "boom")
        none "12:00" false
       = { db := (insert_collected wApp6.db [] (fun _ => none)).1,
           refreshing := false, status := fail_status "boom" }) := by
  have h := refresh_error_aborts wApp6 [] (fun _ => none)
    (fun _ => Except.error "boom") none "12:00" false rfl
  exact ⟨rfl, h.1, h.2.1 "boom" (by decide) rfl⟩

end SignalScout
